import Mathlib

/-!
Verification of the timeline editing engine of the `video-maker` repository
(video-editor-frontend).  The definitions below are a shallow embedding of
the TypeScript sources:

* `src/video-editor-frontend/src/store/timelineStore.ts` (Zustand store),
* `src/video-editor-frontend/src/lib/timeline/calculations.ts`,
* `src/video-editor-frontend/src/lib/timeline/validation.ts`,
* `src/video-editor-frontend/src/hooks/useSnapping.ts`,
* `src/video-editor-frontend/src/hooks/useTimeline.ts`,
* the `TimelineItem` React component (resize handlers).

JavaScript numbers are embedded as rationals (`Rat`); all the arithmetic the
claims exercise is exact at these magnitudes.  Optional fields become
`Option`; JS objects become structures; array methods become their `List`
counterparts in the same order.
-/

namespace VideoMaker

/-- Item kinds of the store types (`types/index.ts`):
`'video' | 'image' | 'audio' | 'text'`. -/
inductive ItemType where
  | video
  | image
  | audio
  | text
deriving DecidableEq, Repr

/-- Track kinds of the store types (`types/index.ts`): `'video' | 'audio' | 'text'`. -/
inductive TrackType where
  | video
  | audio
  | text
deriving DecidableEq, Repr

/-- `TimelineItem` of `types/index.ts` (the store-side item).  The fields the
claims exercise are kept; purely presentational fields (`position`, `scale`,
`rotation`, `fontSize`, `fontFamily`, `color`, `effects`) are omitted, they are
never read by the embedded functions and only carried by object spreads. -/
structure TimelineItem where
  id : String
  trackId : String
  type : ItemType
  startTime : Rat
  duration : Rat
  mediaUrl : Option String := none
  thumbnailUrl : Option String := none
  name : String := ""
  locked : Option Bool := none
  muted : Option Bool := none
  volume : Option Rat := none
  opacity : Option Rat := none
  text : Option String := none
  trimStart : Option Rat := none
  trimEnd : Option Rat := none
deriving DecidableEq, Repr

/-- `Track` of `types/index.ts` (the store-side track). -/
structure Track where
  id : String
  name : String
  type : TrackType
  order : Int
  locked : Option Bool := none
  hidden : Option Bool := none
  height : Option Rat := none
deriving DecidableEq, Repr

/-- `TimelineState` of `types/index.ts` (the canonical store snapshot). -/
structure TimelineState where
  tracks : List Track
  items : List TimelineItem
  playheadPosition : Rat
  duration : Rat
  zoom : Rat
  selectedItemIds : List String
deriving DecidableEq, Repr

/-! ## `lib/timeline/calculations.ts` -/

/-- `pixelsToSeconds(pixels, zoom) = pixels / zoom`. -/
def pixelsToSeconds (pixels zoom : Rat) : Rat :=
  pixels / zoom

/-- `secondsToPixels(seconds, zoom) = seconds * zoom`. -/
def secondsToPixels (seconds zoom : Rat) : Rat :=
  seconds * zoom

/-- `getItemEndTime(item) = item.startTime + item.duration`. -/
def getItemEndTime (item : TimelineItem) : Rat :=
  item.startTime + item.duration

/-- `doItemsOverlap(item1, item2)`: half-open interval intersection,
`item1.startTime < item2End && item2.startTime < item1End`. -/
def doItemsOverlap (item1 item2 : TimelineItem) : Bool :=
  decide (item1.startTime < getItemEndTime item2) &&
    decide (item2.startTime < getItemEndTime item1)

/-- `isItemAtTime(item, time)`: closed-interval containment,
`item.startTime <= time && getItemEndTime(item) >= time`. -/
def isItemAtTime (item : TimelineItem) (time : Rat) : Bool :=
  decide (item.startTime ≤ time) && decide (getItemEndTime item ≥ time)

/-- `findItemsAtTime(items, time) = items.filter(isItemAtTime)`. -/
def findItemsAtTime (items : List TimelineItem) (time : Rat) : List TimelineItem :=
  items.filter (fun item => isItemAtTime item time)

/-! ## `store/timelineStore.ts`

The Zustand store is a record of state plus synchronous mutators; each
mutator is embedded as a pure function `TimelineState → TimelineState`
(`set` applied to the previous state).  `uuidv4()` produces a random id; it
is embedded as an explicit `newId` argument, and freshness (a v4 UUID not
colliding with any existing id) is a hypothesis of the theorems that need it. -/

namespace TimelineStore

/-- `Math.max(...xs, d)` over a spread list together with a final argument:
the maximum of `d` and every element of `xs`. -/
def listMax (xs : List Rat) (d : Rat) : Rat :=
  xs.foldl max d

/-- `removeTrack(trackId)`: filter the track out and cascade item removal.
Note: no last-track guard, and `selectedItemIds` is not touched. -/
def removeTrack (trackId : String) (s : TimelineState) : TimelineState :=
  { s with
    tracks := s.tracks.filter (fun t => t.id ≠ trackId)
    items := s.items.filter (fun i => i.trackId ≠ trackId) }

/-- The fields of an `addItem` payload (`Omit<TimelineItem, 'id'>`), plus the
id the store obtains from `uuidv4()`. -/
def withId (newId : String) (item : TimelineItem) : TimelineItem :=
  { item with id := newId }

/-- `addItem(item)`: append `{...item, id: uuidv4()}` and raise the stored
duration to `Math.max(state.duration, newItem.startTime + newItem.duration)`. -/
def addItem (newId : String) (item : TimelineItem) (s : TimelineState) : TimelineState :=
  let newItem := withId newId item
  { s with
    items := s.items ++ [newItem]
    duration := max s.duration (newItem.startTime + newItem.duration) }

/-- `removeItem(itemId)`: drop the item and its id from the selection. -/
def removeItem (itemId : String) (s : TimelineState) : TimelineState :=
  { s with
    items := s.items.filter (fun i => i.id ≠ itemId)
    selectedItemIds := s.selectedItemIds.filter (fun id => id ≠ itemId) }

/-- `Partial<TimelineItem>` restricted to the fields the embedded callers
update (`updateItem` merges with object spread). -/
structure ItemPatch where
  trackId : Option String := none
  startTime : Option Rat := none
  duration : Option Rat := none
  name : Option String := none
deriving DecidableEq, Repr

/-- `{...i, ...updates}` for an `ItemPatch`. -/
def applyPatch (i : TimelineItem) (p : ItemPatch) : TimelineItem :=
  { i with
    trackId := p.trackId.getD i.trackId
    startTime := p.startTime.getD i.startTime
    duration := p.duration.getD i.duration
    name := p.name.getD i.name }

/-- `updateItem(itemId, updates)`: merge the patch into the matching item and
set `duration` to `Math.max(...items.map(i => i.startTime + i.duration),
state.duration)` over the updated items. -/
def updateItem (itemId : String) (p : ItemPatch) (s : TimelineState) : TimelineState :=
  let items := s.items.map (fun i => if i.id = itemId then applyPatch i p else i)
  let maxEndTime := listMax (items.map (fun i => i.startTime + i.duration)) s.duration
  { s with items := items, duration := maxEndTime }

/-- `moveItem(itemId, trackId, startTime) = updateItem(itemId, {trackId, startTime})`. -/
def moveItem (itemId trackId : String) (startTime : Rat) (s : TimelineState) : TimelineState :=
  updateItem itemId { trackId := some trackId, startTime := some startTime } s

/-- `removeItems(itemIds)`: bulk removal, selection filtered likewise. -/
def removeItems (itemIds : List String) (s : TimelineState) : TimelineState :=
  { s with
    items := s.items.filter (fun i => ¬ itemIds.contains i.id)
    selectedItemIds := s.selectedItemIds.filter (fun id => ¬ itemIds.contains id) }

/-- `getItemsAtTime(time)`: items whose closed interval contains `time`,
`items.filter(i => i.startTime <= time && i.startTime + i.duration >= time)`. -/
def getItemsAtTime (time : Rat) (s : TimelineState) : List TimelineItem :=
  s.items.filter (fun i => decide (i.startTime ≤ time) && decide (i.startTime + i.duration ≥ time))

/-- `calculateTotalDuration()`: `60` when there are no items, otherwise
`Math.max(maxEndTime, 1)`. -/
def calculateTotalDuration (s : TimelineState) : Rat :=
  match s.items with
  | [] => 60
  | i :: rest => max (listMax (rest.map (fun j => j.startTime + j.duration)) (i.startTime + i.duration)) 1

end TimelineStore

/-! ## `lib/timeline/validation.ts` -/

/-- The `{valid, reason?}` result of `canPlaceItem` / `canMoveItems`. -/
structure PlacementResult where
  valid : Bool
  reason : Option String := none
deriving DecidableEq, Repr

/-- `canPlaceItem(item, startTime, trackId, existingItems, allowOverlap)`:
reject a negative `startTime`; unless `allowOverlap`, walk the other items on
`trackId` (excluding `item` itself) and reject on the first half-open overlap
with the proposed placement `{...item, startTime, trackId}`. -/
def canPlaceItem (item : TimelineItem) (startTime : Rat) (trackId : String)
    (existingItems : List TimelineItem) (allowOverlap : Bool := false) : PlacementResult :=
  if startTime < 0 then
    { valid := false, reason := some "Cannot place item at negative time" }
  else if allowOverlap then
    { valid := true }
  else
    let trackItems := existingItems.filter (fun i => i.trackId = trackId ∧ i.id ≠ item.id)
    let proposedItem : TimelineItem := { item with startTime := startTime, trackId := trackId }
    match trackItems.find? (fun existingItem => doItemsOverlap proposedItem existingItem) with
    | some existingItem =>
        { valid := false, reason := some ("Would overlap with item: " ++ existingItem.name) }
    | none => { valid := true }

/-- `Math.max(0, x)`. -/
def clampLow (lo x : Rat) : Rat :=
  max lo x

/-- `Math.max(lo, Math.min(hi, x))`. -/
def clampRange (lo hi x : Rat) : Rat :=
  max lo (min hi x)

/-- `Math.max(40, track.height || 120)`: JS `||` falls back to `120` when
`height` is `undefined` or `0` (the falsy number). -/
def sanitizeHeight (height : Option Rat) : Rat :=
  max 40 (match height with
    | none => 120
    | some h => if h = 0 then 120 else h)

/-- One track of `sanitizeTimeline`'s `tracks.map((track, index) => ...)`:
`order` becomes the array index, `height` becomes
`Math.max(40, track.height || 120)`. -/
def sanitizeTrack (index : Nat) (track : Track) : Track :=
  { track with
    order := Int.ofNat index
    height := some (sanitizeHeight track.height) }

/-- `timeline.tracks.map((track, index) => ...)`, carrying the running index. -/
def sanitizeTracksFrom (index : Nat) : List Track → List Track
  | [] => []
  | track :: rest => sanitizeTrack index track :: sanitizeTracksFrom (index + 1) rest

/-- One item of `sanitizeTimeline`'s `items.map(...)`: clamp `startTime` to
`>= 0`, `duration` to `>= 0.1`, and `volume` / `opacity` (when present) into
`[0, 100]`. -/
def sanitizeItem (item : TimelineItem) : TimelineItem :=
  { item with
    startTime := max 0 item.startTime
    duration := max (1/10) item.duration
    volume := item.volume.map (fun v => clampRange 0 100 v)
    opacity := item.opacity.map (fun v => clampRange 0 100 v) }

/-- `sanitizeTimeline(timeline)`: clamp `playheadPosition >= 0`,
`duration >= 1`, `zoom` into `[10, 500]`, re-index `track.order`, floor
`track.height` at `40`, and sanitize every item; all other fields are kept by
the object spreads. -/
def sanitizeTimeline (timeline : TimelineState) : TimelineState :=
  { timeline with
    playheadPosition := max 0 timeline.playheadPosition
    duration := max 1 timeline.duration
    zoom := clampRange 10 500 timeline.zoom
    tracks := sanitizeTracksFrom 0 timeline.tracks
    items := timeline.items.map sanitizeItem }

/-! ## Hook-side model (`types/timeline.ts`, `useSnapping.ts`, `useTimeline.ts`)

The second, parallel track/item representation embeds the items inside the
tracks (`Track.items`).  `useSnapping` and the `TimelineItem` component's
resize handlers work on it. -/

namespace Hook

/-- `TimelineItem` of `types/timeline.ts` (hook-side item, embedded in its
track; `data` payload omitted, never read by the embedded functions). -/
structure TimelineItem where
  id : String
  type : ItemType
  trackId : String
  startTime : Rat
  duration : Rat
  thumbnail : Option String := none
  name : String := ""
deriving DecidableEq, Repr

/-- `Track` of `types/timeline.ts`: a lane with its items embedded. -/
structure Track where
  id : String
  name : String
  items : List TimelineItem
  height : Rat
  locked : Option Bool := none
  visible : Option Bool := none
deriving DecidableEq, Repr

/-- `TimelineState` of `types/timeline.ts` (the `useTimeline` hook's state). -/
structure TimelineState where
  tracks : List Track
  zoom : Rat
  playheadPosition : Rat
  selectedItemId : Option String
  snapToGrid : Bool
  snapInterval : Rat
  totalDuration : Rat
deriving DecidableEq, Repr

/-- `removeTrack(trackId)` of `useTimeline.ts`: a no-op when
`prev.tracks.length <= 1`, otherwise filter the track out. -/
def removeTrack (trackId : String) (s : TimelineState) : TimelineState :=
  if s.tracks.length ≤ 1 then s
  else { s with tracks := s.tracks.filter (fun t => t.id ≠ trackId) }

/-- Snap point kinds: `'grid' | 'item-start' | 'item-end'`. -/
inductive SnapPointType where
  | grid
  | itemStart
  | itemEnd
deriving DecidableEq, Repr

/-- `SnapPoint` of `types/timeline.ts`: `{time, type, itemId?}`. -/
structure SnapPoint where
  time : Rat
  type : SnapPointType
  itemId : Option String := none
deriving DecidableEq, Repr

/-- JS `Math.round`: round half toward positive infinity,
`Math.round(x) = Math.floor(x + 0.5)`. -/
def jsRound (x : Rat) : Int :=
  ⌊x + 1/2⌋

/-- `itemSnapPoints` of `useSnapping.ts`: for every track in order and every
item in order, its start point then its end point. -/
def itemSnapPoints (tracks : List Track) : List SnapPoint :=
  tracks.flatMap (fun track =>
    track.items.flatMap (fun item =>
      [{ time := item.startTime, type := .itemStart, itemId := some item.id },
       { time := item.startTime + item.duration, type := .itemEnd, itemId := some item.id }]))

/-- The candidate list `snapPoints` that `calculateSnap` builds: the grid
point `Math.round(time / snapInterval) * snapInterval` (when grid snapping is
on and the interval is positive) followed by every item boundary point whose
`itemId` differs from `excludeItemId`. -/
def snapCandidates (snapToGrid : Bool) (snapInterval : Rat) (tracks : List Track)
    (time : Rat) (excludeItemId : Option String) : List SnapPoint :=
  (if snapToGrid ∧ snapInterval > 0 then
    [{ time := (jsRound (time / snapInterval) : Rat) * snapInterval, type := .grid }]
  else []) ++
    (itemSnapPoints tracks).filter (fun point => point.itemId ≠ excludeItemId)

/-- The `for (const point of snapPoints)` loop of `calculateSnap`: starting
from `minDistance = snapThreshold`, replace the best point whenever a point
comes strictly closer than the best distance so far. -/
def nearestLoop (time : Rat) (points : List SnapPoint) (acc : Option SnapPoint × Rat) :
    Option SnapPoint × Rat :=
  points.foldl (fun acc point =>
    if |point.time - time| < acc.2 then (some point, |point.time - time|) else acc) acc

/-- The `{snappedTime, snapPoints, nearestSnapPoint}` result of `calculateSnap`. -/
structure SnapResult where
  snappedTime : Rat
  snapPoints : List SnapPoint
  nearestSnapPoint : Option SnapPoint
deriving DecidableEq, Repr

/-- `calculateSnap(time, excludeItemId)` of `useSnapping.ts`
(`snapThreshold` defaults to `0.1`). -/
def calculateSnap (snapToGrid : Bool) (snapInterval snapThreshold : Rat)
    (tracks : List Track) (time : Rat) (excludeItemId : Option String) : SnapResult :=
  let snapPoints := snapCandidates snapToGrid snapInterval tracks time excludeItemId
  let nearestSnapPoint := (nearestLoop time snapPoints (none, snapThreshold)).1
  { snappedTime := match nearestSnapPoint with
      | some p => p.time
      | none => time
    snapPoints := snapPoints
    nearestSnapPoint := nearestSnapPoint }

/-- `snapTime(time, excludeItemId) = calculateSnap(...).snappedTime`. -/
def snapTime (snapToGrid : Bool) (snapInterval snapThreshold : Rat)
    (tracks : List Track) (time : Rat) (excludeItemId : Option String) : Rat :=
  (calculateSnap snapToGrid snapInterval snapThreshold tracks time excludeItemId).snappedTime

/-- The end-handle branch of the `TimelineItem` component's `handleMouseMove`:
the raw new duration is floored at `0.1`, the resulting end time is snapped
(excluding the item itself), and the update `{duration: snappedDuration}` is
committed only when `snappedDuration > 0.1` strictly.  Returns the committed
duration, or `none` when no `onUpdate` call happens. -/
def resizeEndCommit (snapToGrid : Bool) (snapInterval snapThreshold : Rat)
    (tracks : List Track) (itemId : String)
    (originalStartTime originalDuration deltaTime : Rat) : Option Rat :=
  let newDuration := max (1/10) (originalDuration + deltaTime)
  let newEndTime := snapTime snapToGrid snapInterval snapThreshold tracks
    (originalStartTime + newDuration) (some itemId)
  let snappedDuration := newEndTime - originalStartTime
  if snappedDuration > 1/10 then some snappedDuration else none

/-- The effect of the end-handle resize on the item: `onUpdate(item.id,
{duration})` merges only `duration`; with no commit the item is untouched. -/
def applyResizeEnd (item : TimelineItem) (committed : Option Rat) : TimelineItem :=
  match committed with
  | some d => { item with duration := d }
  | none => item

end Hook

/-! ## Concrete snapshots used by witnesses and counterexamples -/

/-- A store snapshot with exactly one track and nothing else. -/
def oneTrackState : TimelineState :=
  { tracks := [{ id := "track-1", name := "Track 1", type := .video, order := 0, height := some 120 }]
    items := []
    playheadPosition := 0
    duration := 60
    zoom := 50
    selectedItemIds := [] }

/-- A hook snapshot with exactly one track. -/
def oneTrackHookState : Hook.TimelineState :=
  { tracks := [{ id := "track-1", name := "Track 1", items := [], height := 80 }]
    zoom := 100
    playheadPosition := 0
    selectedItemId := none
    snapToGrid := true
    snapInterval := 1/2
    totalDuration := 30 }

/-- A store snapshot with two tracks, one item on the second track, and that
item selected. -/
def twoTrackState : TimelineState :=
  { tracks := [{ id := "t1", name := "Video 1", type := .video, order := 0, height := some 120 },
               { id := "t2", name := "Audio 1", type := .audio, order := 1, height := some 80 }]
    items := [{ id := "i2", trackId := "t2", type := .audio, startTime := 0, duration := 4, name := "clip" }]
    playheadPosition := 0
    duration := 60
    zoom := 50
    selectedItemIds := ["i2"] }

/-- A store snapshot whose single item is the longest thing on the timeline:
its end (100) equals the stored duration. -/
def longItemState : TimelineState :=
  { tracks := [{ id := "t1", name := "Video 1", type := .video, order := 0, height := some 120 }]
    items := [{ id := "i1", trackId := "t1", type := .video, startTime := 0, duration := 100, name := "long" }]
    playheadPosition := 0
    duration := 100
    zoom := 50
    selectedItemIds := [] }

/-- The hook-side item being resized in the C6 counterexample: `[0, 5)` on
track `t1`. -/
def resizeItem : Hook.TimelineItem :=
  { id := "i1", type := .video, trackId := "t1", startTime := 0, duration := 5, name := "clip" }

/-- The hook-side track holding `resizeItem` alone. -/
def resizeTrack : Hook.Track :=
  { id := "t1", name := "Track 1", items := [resizeItem], height := 80 }

/-! ## Shared lemmas -/

/-- The seed of `Math.max(...xs, d)` bounds the result from below. -/
theorem le_listMax (xs : List Rat) (d : Rat) : d ≤ TimelineStore.listMax xs d := by
  induction xs generalizing d with
  | nil => exact le_refl d
  | cons a l ih =>
      exact le_trans (le_max_left d a) (ih (max d a))

/-- Every element of `xs` bounds `Math.max(...xs, d)` from below. -/
theorem mem_le_listMax (xs : List Rat) (d x : Rat) (hx : x ∈ xs) :
    x ≤ TimelineStore.listMax xs d := by
  induction xs generalizing d with
  | nil => cases hx
  | cons a l ih =>
      rcases List.mem_cons.mp hx with h | h
      · subst h
        exact le_trans (le_max_right d x) (le_listMax l (max d x))
      · exact ih (max d a) h

/-- `Math.max(lo, Math.min(hi, x))` is idempotent when `lo ≤ hi`. -/
theorem clampRange_idem (lo hi x : Rat) (h : lo ≤ hi) :
    clampRange lo hi (clampRange lo hi x) = clampRange lo hi x := by
  unfold clampRange
  have h1 : max lo (min hi x) ≤ hi := max_le h (min_le_left hi x)
  have h2 : lo ≤ max lo (min hi x) := le_max_left lo (min hi x)
  rw [min_eq_right h1, max_eq_right h2]

/-- `Math.max(lo, ·)` is idempotent. -/
theorem clampLow_idem (lo x : Rat) : max lo (max lo x) = max lo x := by
  rw [← max_assoc, max_self]

/-! ## C9: pixel/time round trip -/

/-- C9: for every `t ≥ 0` and `zoom` in the clamped range `[10, 500]`,
`pixelsToSeconds(secondsToPixels(t, zoom), zoom) = t`, exactly over the
rationals; both functions are the pure arithmetic above. -/
theorem C9_time_pixel_roundtrip (t zoom : Rat) (ht : 0 ≤ t)
    (h1 : 10 ≤ zoom) (h2 : zoom ≤ 500) :
    pixelsToSeconds (secondsToPixels t zoom) zoom = t := by
  have hz : zoom ≠ 0 := by
    intro h
    rw [h] at h1
    norm_num at h1
  unfold pixelsToSeconds secondsToPixels
  field_simp

/-- C9 witness: the round trip at `t = 7`, `zoom = 50`. -/
theorem C9_witness : pixelsToSeconds (secondsToPixels 7 50) 50 = 7 :=
  C9_time_pixel_roundtrip 7 50 (by norm_num) (by norm_num) (by norm_num)

/-! ## C10: closed intervals in `getItemsAtTime`, half-open in `doItemsOverlap` -/

/-- C10: `getItemsAtTime` (and `isItemAtTime`) treat item intervals as closed
at both ends — an item is returned exactly when `startTime ≤ t ≤ startTime +
duration`, so an item ending exactly at `t` is included — while
`doItemsOverlap` is strict on both sides, so two items that merely touch
(`b` starts exactly where `a` ends) do not overlap. -/
theorem C10_getItemsAtTime_closed_interval :
    (∀ (s : TimelineState) (t : Rat) (i : TimelineItem),
      i ∈ TimelineStore.getItemsAtTime t s ↔
        i ∈ s.items ∧ i.startTime ≤ t ∧ t ≤ i.startTime + i.duration) ∧
    (∀ (i : TimelineItem) (t : Rat),
      isItemAtTime i t = true ↔ i.startTime ≤ t ∧ t ≤ getItemEndTime i) ∧
    (∀ a b : TimelineItem, b.startTime = getItemEndTime a → doItemsOverlap a b = false) := by
  refine ⟨?_, ?_, ?_⟩
  · intro s t i
    simp only [TimelineStore.getItemsAtTime, List.mem_filter, Bool.and_eq_true,
      decide_eq_true_eq, ge_iff_le, and_assoc]
  · intro i t
    simp only [isItemAtTime, Bool.and_eq_true, decide_eq_true_eq, ge_iff_le]
  · intro a b h
    simp only [doItemsOverlap, Bool.and_eq_false_iff, decide_eq_false_iff_not, not_lt]
    right
    rw [h]

/-! ## C4: `canPlaceItem` -/

/-- C4: `canPlaceItem` accepts exactly when the proposed start is
non-negative and, unless `allowOverlap`, no other item already on the target
track (the moved item itself excluded) half-open-intersects the proposed
interval `[startTime, startTime + item.duration)`. -/
theorem C4_canPlaceItem_valid_iff (item : TimelineItem) (startTime : Rat)
    (trackId : String) (existingItems : List TimelineItem) (allowOverlap : Bool) :
    (canPlaceItem item startTime trackId existingItems allowOverlap).valid = true ↔
      0 ≤ startTime ∧ (allowOverlap = true ∨
        ∀ other ∈ existingItems, other.trackId = trackId → other.id ≠ item.id →
          ¬(startTime < other.startTime + other.duration ∧
            other.startTime < startTime + item.duration)) := by
  unfold canPlaceItem
  by_cases hneg : startTime < 0
  · simp [hneg, not_le.mpr hneg]
  · by_cases hallow : allowOverlap = true
    · simp [hneg, hallow, not_lt.mp hneg]
    · have hfalse : allowOverlap = false := Bool.eq_false_iff.mpr hallow
      rw [if_neg hneg, hfalse]
      simp only [Bool.false_eq_true, if_false]
      split
      next e heq =>
        constructor
        · intro h
          exact absurd h (by simp)
        · rintro ⟨-, h | h⟩
          · exact absurd h (by simp [hfalse])
          · exfalso
            have hpred := List.find?_some heq
            have hmem := List.mem_of_find?_eq_some heq
            have hin2 := List.mem_filter.mp hmem
            obtain ⟨htrack, hid⟩ := decide_eq_true_eq.mp hin2.2
            simp only [doItemsOverlap, getItemEndTime, Bool.and_eq_true,
              decide_eq_true_eq] at hpred
            exact h e hin2.1 htrack hid ⟨hpred.1, hpred.2⟩
      next heq =>
        constructor
        · intro _
          refine ⟨not_lt.mp hneg, Or.inr ?_⟩
          intro other hmem htrack hid hov
          rw [List.find?_eq_none] at heq
          have hin : other ∈ existingItems.filter
              (fun i => decide (i.trackId = trackId ∧ i.id ≠ item.id)) :=
            List.mem_filter.mpr ⟨hmem, decide_eq_true_eq.mpr ⟨htrack, hid⟩⟩
          apply heq other hin
          simp only [doItemsOverlap, getItemEndTime, Bool.and_eq_true, decide_eq_true_eq]
          exact ⟨hov.1, hov.2⟩
        · intro _
          rfl

/-! ## C1: removal of the last track -/

/-- C1 counterexample: the Zustand store's `removeTrack` has no last-track
guard.  On a snapshot with exactly one track, removing that track empties the
track list instead of leaving the state unchanged. -/
theorem C1_cex_store_removeTrack_removes_last_track :
    oneTrackState.tracks.length = 1 ∧
    (TimelineStore.removeTrack "track-1" oneTrackState).tracks = [] ∧
    TimelineStore.removeTrack "track-1" oneTrackState ≠ oneTrackState := by
  refine ⟨rfl, by decide, ?_⟩
  intro h
  have := congrArg (fun s => s.tracks.length) h
  simp [TimelineStore.removeTrack, oneTrackState] at this

/-- C1 amended: the last-track guard lives in the `useTimeline` hook, not in
the store.  The hook's `removeTrack` returns the state unchanged whenever it
holds at most one track (so in a one-track hook state the track count stays 1
and the track list is identical); the store's `removeTrack` removes the track
unconditionally. -/
theorem C1_hook_removeTrack_guards_last_track (s : Hook.TimelineState) (trackId : String)
    (h : s.tracks.length = 1) : Hook.removeTrack trackId s = s := by
  unfold Hook.removeTrack
  rw [if_pos]
  omega

/-- C1 witness: the guard at the concrete one-track hook snapshot. -/
theorem C1_witness :
    Hook.removeTrack "track-1" oneTrackHookState = oneTrackHookState :=
  C1_hook_removeTrack_guards_last_track oneTrackHookState "track-1" rfl

/-! ## C7: `removeTrack` cascade and frame -/

/-- C7 counterexample: the store's `removeTrack` cascades item deletion but
does not clear the selection.  Removing track `t2` of `twoTrackState` deletes
its item `i2`, yet `i2` stays in `selectedItemIds`. -/
theorem C7_cex_removeTrack_keeps_selection :
    (TimelineStore.removeTrack "t2" twoTrackState).items = [] ∧
    "i2" ∈ (TimelineStore.removeTrack "t2" twoTrackState).selectedItemIds := by
  constructor
  · decide
  · decide

/-- C7 amended: for a state with more than one track and a present track id,
`removeTrack(id)` keeps exactly the tracks with a different id and exactly the
items on other tracks (the cascade), and every other field — the selection
included — is left unchanged; selection cleanup happens only in
`removeItem` / `removeItems`. -/
theorem C7_removeTrack_effect (s : TimelineState) (trackId : String)
    (hmany : 1 < s.tracks.length) (hmem : trackId ∈ s.tracks.map Track.id) :
    (∀ t : Track, t ∈ (TimelineStore.removeTrack trackId s).tracks ↔
      t ∈ s.tracks ∧ t.id ≠ trackId) ∧
    (∀ i : TimelineItem, i ∈ (TimelineStore.removeTrack trackId s).items ↔
      i ∈ s.items ∧ i.trackId ≠ trackId) ∧
    (TimelineStore.removeTrack trackId s).selectedItemIds = s.selectedItemIds ∧
    (TimelineStore.removeTrack trackId s).playheadPosition = s.playheadPosition ∧
    (TimelineStore.removeTrack trackId s).duration = s.duration ∧
    (TimelineStore.removeTrack trackId s).zoom = s.zoom := by
  refine ⟨?_, ?_, rfl, rfl, rfl, rfl⟩
  · intro t
    simp [TimelineStore.removeTrack, List.mem_filter]
  · intro i
    simp [TimelineStore.removeTrack, List.mem_filter]

/-- C7 witness: the amended effect at the concrete two-track snapshot. -/
theorem C7_witness :
    (∀ t : Track, t ∈ (TimelineStore.removeTrack "t2" twoTrackState).tracks ↔
      t ∈ twoTrackState.tracks ∧ t.id ≠ "t2") ∧
    (∀ i : TimelineItem, i ∈ (TimelineStore.removeTrack "t2" twoTrackState).items ↔
      i ∈ twoTrackState.items ∧ i.trackId ≠ "t2") ∧
    (TimelineStore.removeTrack "t2" twoTrackState).selectedItemIds =
      twoTrackState.selectedItemIds ∧
    (TimelineStore.removeTrack "t2" twoTrackState).playheadPosition =
      twoTrackState.playheadPosition ∧
    (TimelineStore.removeTrack "t2" twoTrackState).duration = twoTrackState.duration ∧
    (TimelineStore.removeTrack "t2" twoTrackState).zoom = twoTrackState.zoom :=
  C7_removeTrack_effect twoTrackState "t2" (by decide) (by decide)

/-! ## C8: `addItem` -/

/-- C8: `addItem` appends the payload with the generated id (modelled as the
explicit `newId` that `uuidv4()` returned; its freshness — no collision with
an existing item id — is the hypothesis `hfresh`), leaves every existing item
unchanged, and raises the stored duration to
`max(state.duration, newItem.startTime + newItem.duration)`; in particular
the new duration is at least the new item's end time. -/
theorem C8_addItem_spec (s : TimelineState) (item : TimelineItem) (newId : String)
    (hfresh : ∀ i ∈ s.items, i.id ≠ newId) :
    (TimelineStore.addItem newId item s).items =
      s.items ++ [TimelineStore.withId newId item] ∧
    (TimelineStore.withId newId item).id = newId ∧
    (∀ i ∈ s.items, i.id ≠ (TimelineStore.withId newId item).id) ∧
    (TimelineStore.addItem newId item s).duration =
      max s.duration (item.startTime + item.duration) ∧
    item.startTime + item.duration ≤ (TimelineStore.addItem newId item s).duration ∧
    s.duration ≤ (TimelineStore.addItem newId item s).duration ∧
    (TimelineStore.addItem newId item s).tracks = s.tracks ∧
    (TimelineStore.addItem newId item s).selectedItemIds = s.selectedItemIds := by
  refine ⟨rfl, rfl, hfresh, rfl, le_max_right _ _, le_max_left _ _, rfl, rfl⟩

/-- C8 witness: adding `{startTime: 10, duration: 5}` to the one-track
snapshot (no items, stored duration 60) through `addItem` with fresh id
`u1`: the end time `15` bounds the new stored duration. -/
theorem C8_witness :
    (TimelineStore.addItem "u1"
        { id := "", trackId := "track-1", type := .video, startTime := 10, duration := 5 }
        oneTrackState).items =
      oneTrackState.items ++ [TimelineStore.withId "u1"
        { id := "", trackId := "track-1", type := .video, startTime := 10, duration := 5 }] ∧
    (TimelineStore.withId "u1"
      { id := "", trackId := "track-1", type := .video, startTime := 10, duration := 5 }).id
        = "u1" ∧
    (∀ i ∈ oneTrackState.items, i.id ≠ (TimelineStore.withId "u1"
      { id := "", trackId := "track-1", type := .video, startTime := 10, duration := 5 }).id) ∧
    (TimelineStore.addItem "u1"
        { id := "", trackId := "track-1", type := .video, startTime := 10, duration := 5 }
        oneTrackState).duration = max oneTrackState.duration (10 + 5) ∧
    (10 : Rat) + 5 ≤ (TimelineStore.addItem "u1"
        { id := "", trackId := "track-1", type := .video, startTime := 10, duration := 5 }
        oneTrackState).duration ∧
    oneTrackState.duration ≤ (TimelineStore.addItem "u1"
        { id := "", trackId := "track-1", type := .video, startTime := 10, duration := 5 }
        oneTrackState).duration ∧
    (TimelineStore.addItem "u1"
        { id := "", trackId := "track-1", type := .video, startTime := 10, duration := 5 }
        oneTrackState).tracks = oneTrackState.tracks ∧
    (TimelineStore.addItem "u1"
        { id := "", trackId := "track-1", type := .video, startTime := 10, duration := 5 }
        oneTrackState).selectedItemIds = oneTrackState.selectedItemIds :=
  C8_addItem_spec oneTrackState
    { id := "", trackId := "track-1", type := .video, startTime := 10, duration := 5 }
    "u1" (by intro i hi; cases hi)

/-! ## C2: the stored total duration -/

/-- C2 counterexample: `removeItem` does not recompute the stored duration.
Removing the single 100-second item of `longItemState` leaves the stored
duration at 100, while the derived formula (`calculateTotalDuration`, the
default floor of 60 on an empty item list) yields 60 — the stored value does
not come back down to the maximum item end. -/
theorem C2_cex_removeItem_keeps_stale_duration :
    (TimelineStore.removeItem "i1" longItemState).items = [] ∧
    (TimelineStore.removeItem "i1" longItemState).duration = 100 ∧
    TimelineStore.calculateTotalDuration (TimelineStore.removeItem "i1" longItemState) = 60 ∧
    (TimelineStore.removeItem "i1" longItemState).duration ≠
      TimelineStore.calculateTotalDuration (TimelineStore.removeItem "i1" longItemState) := by
  refine ⟨by decide, rfl, ?_, ?_⟩
  · decide
  · decide

/-- C2 amended: the store's mutations only ever raise the stored duration.
`updateItem` sets it to the maximum of the previous stored duration and every
updated item's end time (so it covers all item ends but never shrinks);
`moveItem` is `updateItem` on `{trackId, startTime}`; `addItem` takes
`max(previous, new end)`; `removeItem` leaves the stored duration untouched.
The `max(floor, max item end)` value of the claim is computed only by the
read-only query `calculateTotalDuration` and is not stored back. -/
theorem C2_store_duration_monotone :
    (∀ (s : TimelineState) (itemId : String) (p : TimelineStore.ItemPatch),
      s.duration ≤ (TimelineStore.updateItem itemId p s).duration) ∧
    (∀ (s : TimelineState) (itemId : String) (p : TimelineStore.ItemPatch),
      ∀ i ∈ (TimelineStore.updateItem itemId p s).items,
        i.startTime + i.duration ≤ (TimelineStore.updateItem itemId p s).duration) ∧
    (∀ (s : TimelineState) (itemId trackId : String) (startTime : Rat),
      TimelineStore.moveItem itemId trackId startTime s =
        TimelineStore.updateItem itemId
          { trackId := some trackId, startTime := some startTime } s) ∧
    (∀ (s : TimelineState) (newId : String) (item : TimelineItem),
      s.duration ≤ (TimelineStore.addItem newId item s).duration) ∧
    (∀ (s : TimelineState) (itemId : String),
      (TimelineStore.removeItem itemId s).duration = s.duration) := by
  refine ⟨?_, ?_, ?_, ?_, ?_⟩
  · intro s itemId p
    exact le_listMax _ _
  · intro s itemId p i hi
    exact mem_le_listMax _ _ _ (List.mem_map_of_mem (fun j => j.startTime + j.duration) hi)
  · intro s itemId trackId startTime
    rfl
  · intro s newId item
    exact le_max_left _ _
  · intro s itemId
    rfl

/-! ## C5: `sanitizeTimeline` idempotence -/

/-- A sanitized height is already a fixed point: it is at least 40, hence
non-zero, so `|| 120` keeps it and `Math.max(40, ·)` keeps it. -/
theorem sanitizeHeight_idem (h : Option Rat) :
    sanitizeHeight (some (sanitizeHeight h)) = sanitizeHeight h := by
  have h40 : (40 : Rat) ≤ sanitizeHeight h := le_max_left _ _
  have hne : sanitizeHeight h ≠ 0 := by
    intro e
    rw [e] at h40
    norm_num at h40
  show max 40 (if sanitizeHeight h = 0 then 120 else sanitizeHeight h) = sanitizeHeight h
  rw [if_neg hne]
  exact max_eq_right h40

/-- Sanitizing a track twice at the same index is sanitizing it once. -/
theorem sanitizeTrack_idem (index : Nat) (t : Track) :
    sanitizeTrack index (sanitizeTrack index t) = sanitizeTrack index t := by
  unfold sanitizeTrack
  simp [sanitizeHeight_idem]

/-- Sanitizing the track list twice from the same start index is sanitizing
it once. -/
theorem sanitizeTracksFrom_idem (ts : List Track) (index : Nat) :
    sanitizeTracksFrom index (sanitizeTracksFrom index ts) =
      sanitizeTracksFrom index ts := by
  induction ts generalizing index with
  | nil => rfl
  | cons t rest ih =>
      show sanitizeTrack index (sanitizeTrack index t) ::
          sanitizeTracksFrom (index + 1) (sanitizeTracksFrom (index + 1) rest) = _
      rw [sanitizeTrack_idem, ih]
      rfl

/-- `clampRange 0 100` is idempotent. -/
theorem clampVolume_idem (v : Rat) :
    clampRange 0 100 (clampRange 0 100 v) = clampRange 0 100 v :=
  clampRange_idem 0 100 v (by norm_num)

/-- Sanitizing an item twice is sanitizing it once. -/
theorem sanitizeItem_idem (i : TimelineItem) :
    sanitizeItem (sanitizeItem i) = sanitizeItem i := by
  unfold sanitizeItem
  have hcc : ((fun v : Rat => clampRange 0 100 v) ∘ fun v : Rat => clampRange 0 100 v) =
      fun v : Rat => clampRange 0 100 v :=
    funext (fun v => clampVolume_idem v)
  simp [clampLow_idem, Option.map_map, hcc]

/-- C5: `sanitizeTimeline` is idempotent on every snapshot — negative
playhead, out-of-range zoom, non-dense track order, non-positive heights,
negative item start times and out-of-range volume/opacity included:
sanitizing twice is sanitizing once. -/
theorem C5_sanitizeTimeline_idempotent (s : TimelineState) :
    sanitizeTimeline (sanitizeTimeline s) = sanitizeTimeline s := by
  unfold sanitizeTimeline
  simp [clampLow_idem, sanitizeTracksFrom_idem, List.map_map, Function.comp,
    sanitizeItem_idem, clampRange_idem 10 500 _ (by norm_num : (10:Rat) ≤ 500)]

/-! ## C6: end-handle resize floor -/

/-- C6 counterexample: end-handle resize of `resizeItem` (`[0, 5)`, alone on
its track, grid `0.5`, threshold `0.1`) with pointer delta `-4.95` seconds.
The raw duration `0.05` is floored to `0.1`, the snapped end stays `0.1`, so
`snappedDuration = 0.1` fails the strict `> 0.1` guard: nothing is committed
and the item keeps duration `5` — not the `0.1` the claim promises. -/
theorem C6_cex_end_resize_floor_not_committed :
    Hook.resizeEndCommit true (1/2) (1/10) [resizeTrack] "i1" 0 5 (-(99/20)) = none ∧
    Hook.applyResizeEnd resizeItem
      (Hook.resizeEndCommit true (1/2) (1/10) [resizeTrack] "i1" 0 5 (-(99/20))) =
      resizeItem ∧
    (Hook.applyResizeEnd resizeItem
      (Hook.resizeEndCommit true (1/2) (1/10) [resizeTrack] "i1" 0 5 (-(99/20)))).duration ≠
      1/10 := by
  have hr : Hook.resizeEndCommit true (1/2) (1/10) [resizeTrack] "i1" 0 5 (-(99/20)) = none := by
    unfold Hook.resizeEndCommit Hook.snapTime Hook.calculateSnap Hook.snapCandidates
      Hook.itemSnapPoints Hook.nearestLoop Hook.jsRound
    norm_num [resizeTrack, resizeItem]
    rw [if_neg (by
      rw [abs_of_nonneg (by norm_num : (0:Rat) ≤ 1/10)]
      exact lt_irrefl _ : ¬ (|(1:Rat)/10| < 1/10))]
    intro h
    exact absurd (show (1:Rat)/10 < 1/10 from h) (lt_irrefl _)
  refine ⟨hr, ?_, ?_⟩
  · rw [hr]
    rfl
  · rw [hr]
    show resizeItem.duration ≠ 1/10
    norm_num [resizeItem]

/-- C6 amended: the end-handle resize never commits a duration at or below
the `0.1` floor — a commit happens only when the snapped duration strictly
exceeds `0.1`, so when the delta would produce a below-floor duration and
snapping leaves the floored end in place, no update is committed and the
item keeps its previous duration; `startTime` is untouched by an end-handle
resize in every case. -/
theorem C6_end_resize_commit_properties (snapToGrid : Bool) (snapInterval snapThreshold : Rat)
    (tracks : List Hook.Track) (itemId : String) (oST oD delta : Rat)
    (item : Hook.TimelineItem) :
    (∀ d : Rat,
      Hook.resizeEndCommit snapToGrid snapInterval snapThreshold tracks itemId oST oD delta =
        some d → 1/10 < d) ∧
    (Hook.applyResizeEnd item
      (Hook.resizeEndCommit snapToGrid snapInterval snapThreshold tracks itemId
        oST oD delta)).startTime = item.startTime ∧
    (Hook.resizeEndCommit snapToGrid snapInterval snapThreshold tracks itemId oST oD delta =
        none →
      Hook.applyResizeEnd item
        (Hook.resizeEndCommit snapToGrid snapInterval snapThreshold tracks itemId
          oST oD delta) = item) := by
  refine ⟨?_, ?_, ?_⟩
  · intro d hd
    simp only [Hook.resizeEndCommit] at hd
    split at hd
    · next hgt =>
        obtain rfl := Option.some.inj hd
        exact hgt
    · exact Option.noConfusion hd
  · cases Hook.resizeEndCommit snapToGrid snapInterval snapThreshold tracks itemId
        oST oD delta with
    | none => rfl
    | some d => rfl
  · intro h
    rw [h]
    rfl

/-! ## C3: the snap computation -/

/-- When every point is at least `m` away, the nearest-point loop never
updates its accumulator. -/
theorem nearestLoop_none_of_far (t : Rat) (pts : List Hook.SnapPoint) (m : Rat)
    (h : ∀ p ∈ pts, m ≤ |p.time - t|) :
    Hook.nearestLoop t pts (none, m) = (none, m) := by
  induction pts with
  | nil => rfl
  | cons a l ih =>
      show Hook.nearestLoop t l
        (if |a.time - t| < m then (some a, |a.time - t|) else (none, m)) = (none, m)
      rw [if_neg (not_lt.mpr (h a (List.mem_cons_self a l)))]
      exact ih (fun p hp => h p (List.mem_cons_of_mem a hp))

/-- Once the loop holds a best point `q` (with its true distance), it ends
with a best point `r` that is no farther than `q` and than any point of the
remaining list, and `r` is either `q` itself or the first strictly closer
point of the list (every point before it being strictly farther than `r`). -/
theorem nearestLoop_some (t : Rat) (pts : List Hook.SnapPoint) (q : Hook.SnapPoint) :
    ∃ r : Hook.SnapPoint,
      Hook.nearestLoop t pts (some q, |q.time - t|) = (some r, |r.time - t|) ∧
      |r.time - t| ≤ |q.time - t| ∧
      (∀ x ∈ pts, |r.time - t| ≤ |x.time - t|) ∧
      (r = q ∨ ∃ l₁ l₂, pts = l₁ ++ r :: l₂ ∧ |r.time - t| < |q.time - t| ∧
        ∀ x ∈ l₁, |r.time - t| < |x.time - t|) := by
  induction pts generalizing q with
  | nil => exact ⟨q, rfl, le_refl _, by simp, Or.inl rfl⟩
  | cons a l ih =>
      by_cases hc : |a.time - t| < |q.time - t|
      · have hstep : Hook.nearestLoop t (a :: l) (some q, |q.time - t|) =
            Hook.nearestLoop t l (some a, |a.time - t|) := by
          show Hook.nearestLoop t l
            (if |a.time - t| < |q.time - t| then (some a, |a.time - t|)
              else (some q, |q.time - t|)) = _
          rw [if_pos hc]
        obtain ⟨r, hr, hle, hall, hpos⟩ := ih a
        refine ⟨r, hstep ▸ hr, le_trans hle (le_of_lt hc), ?_, ?_⟩
        · intro x hx
          rcases List.mem_cons.mp hx with rfl | hx
          · exact hle
          · exact hall x hx
        · rcases hpos with rfl | ⟨l₁, l₂, hsplit, hlt2, hfirst⟩
          · exact Or.inr ⟨[], l, rfl, hc, by simp⟩
          · refine Or.inr ⟨a :: l₁, l₂, by rw [hsplit]; rfl, lt_trans hlt2 hc, ?_⟩
            intro x hx
            rcases List.mem_cons.mp hx with rfl | hx
            · exact hlt2
            · exact hfirst x hx
      · have hstep : Hook.nearestLoop t (a :: l) (some q, |q.time - t|) =
            Hook.nearestLoop t l (some q, |q.time - t|) := by
          show Hook.nearestLoop t l
            (if |a.time - t| < |q.time - t| then (some a, |a.time - t|)
              else (some q, |q.time - t|)) = _
          rw [if_neg hc]
        obtain ⟨r, hr, hle, hall, hpos⟩ := ih q
        refine ⟨r, hstep ▸ hr, hle, ?_, ?_⟩
        · intro x hx
          rcases List.mem_cons.mp hx with rfl | hx
          · exact le_trans hle (not_lt.mp hc)
          · exact hall x hx
        · rcases hpos with rfl | ⟨l₁, l₂, hsplit, hlt2, hfirst⟩
          · exact Or.inl rfl
          · refine Or.inr ⟨a :: l₁, l₂, by rw [hsplit]; rfl, hlt2, ?_⟩
            intro x hx
            rcases List.mem_cons.mp hx with rfl | hx
            · exact lt_of_lt_of_le hlt2 (not_lt.mp hc)
            · exact hfirst x hx

/-- When some point lies strictly within `m` of `t`, the loop (seeded with
`minDistance = m`) ends on the first point of minimal distance: a split
`pts = l₁ ++ r :: l₂` with `r` within `m`, no farther than any point, and
strictly closer than every point of `l₁` before it. -/
theorem nearestLoop_finds_first_min (t : Rat) (pts : List Hook.SnapPoint) (m : Rat)
    (p₀ : Hook.SnapPoint) (h₀ : p₀ ∈ pts) (hlt : |p₀.time - t| < m) :
    ∃ r l₁ l₂, (Hook.nearestLoop t pts (none, m)).1 = some r ∧
      pts = l₁ ++ r :: l₂ ∧ |r.time - t| < m ∧
      (∀ x ∈ pts, |r.time - t| ≤ |x.time - t|) ∧
      (∀ x ∈ l₁, |r.time - t| < |x.time - t|) := by
  induction pts with
  | nil => cases h₀
  | cons a l ih =>
      by_cases hc : |a.time - t| < m
      · have hstep : Hook.nearestLoop t (a :: l) (none, m) =
            Hook.nearestLoop t l (some a, |a.time - t|) := by
          show Hook.nearestLoop t l
            (if |a.time - t| < m then (some a, |a.time - t|) else (none, m)) = _
          rw [if_pos hc]
        obtain ⟨r, hr, hle, hall, hpos⟩ := nearestLoop_some t l a
        rcases hpos with rfl | ⟨l₁, l₂, hsplit, hlt2, hfirst⟩
        · refine ⟨r, [], l, by rw [hstep, hr], rfl, hc, ?_, by simp⟩
          intro x hx
          rcases List.mem_cons.mp hx with rfl | hx
          · exact le_refl _
          · exact hall x hx
        · refine ⟨r, a :: l₁, l₂, by rw [hstep, hr], by rw [hsplit]; rfl,
            lt_trans hlt2 hc, ?_, ?_⟩
          · intro x hx
            rcases List.mem_cons.mp hx with rfl | hx
            · exact hle
            · exact hall x hx
          · intro x hx
            rcases List.mem_cons.mp hx with rfl | hx
            · exact hlt2
            · exact hfirst x hx
      · have h₀l : p₀ ∈ l := by
          rcases List.mem_cons.mp h₀ with rfl | hx
          · exact absurd hlt hc
          · exact hx
        have hstep : Hook.nearestLoop t (a :: l) (none, m) =
            Hook.nearestLoop t l (none, m) := by
          show Hook.nearestLoop t l
            (if |a.time - t| < m then (some a, |a.time - t|) else (none, m)) = _
          rw [if_neg hc]
        obtain ⟨r, l₁, l₂, hr, hsplit, hm, hall, hfirst⟩ := ih h₀l
        refine ⟨r, a :: l₁, l₂, by rw [hstep]; exact hr, by rw [hsplit]; rfl, hm, ?_, ?_⟩
        · intro x hx
          rcases List.mem_cons.mp hx with rfl | hx
          · exact le_trans (le_of_lt hm) (not_lt.mp hc)
          · exact hall x hx
        · intro x hx
          rcases List.mem_cons.mp hx with rfl | hx
          · exact lt_of_lt_of_le hm (not_lt.mp hc)
          · exact hfirst x hx

/-- C3: `calculateSnap` returns `t` unchanged when every candidate (the grid
point — generated first — when grid snapping is on with positive interval,
then the boundary points of every item except the excluded one) is at least
the threshold away; otherwise it returns the time of the candidate of
minimal distance `|candidate.time − t|`, that distance being strictly below
the threshold, and on ties the first candidate in generation order wins:
every candidate generated before the chosen one is strictly farther. -/
theorem C3_calculateSnap_nearest_within_threshold (snapToGrid : Bool)
    (snapInterval snapThreshold t : Rat) (tracks : List Hook.Track)
    (excludeItemId : Option String) :
    ((∀ p ∈ Hook.snapCandidates snapToGrid snapInterval tracks t excludeItemId,
        snapThreshold ≤ |p.time - t|) →
      Hook.snapTime snapToGrid snapInterval snapThreshold tracks t excludeItemId = t) ∧
    (∀ p₀ ∈ Hook.snapCandidates snapToGrid snapInterval tracks t excludeItemId,
      |p₀.time - t| < snapThreshold →
      ∃ p l₁ l₂,
        Hook.snapCandidates snapToGrid snapInterval tracks t excludeItemId =
          l₁ ++ p :: l₂ ∧
        Hook.snapTime snapToGrid snapInterval snapThreshold tracks t excludeItemId =
          p.time ∧
        |p.time - t| < snapThreshold ∧
        (∀ q ∈ Hook.snapCandidates snapToGrid snapInterval tracks t excludeItemId,
          |p.time - t| ≤ |q.time - t|) ∧
        (∀ q ∈ l₁, |p.time - t| < |q.time - t|)) := by
  constructor
  · intro hfar
    show (match (Hook.nearestLoop t
        (Hook.snapCandidates snapToGrid snapInterval tracks t excludeItemId)
        (none, snapThreshold)).1 with
      | some p => p.time
      | none => t) = t
    rw [nearestLoop_none_of_far t _ snapThreshold hfar]
  · intro p₀ h₀ hlt
    obtain ⟨r, l₁, l₂, hr, hsplit, hm, hall, hfirst⟩ :=
      nearestLoop_finds_first_min t _ snapThreshold p₀ h₀ hlt
    refine ⟨r, l₁, l₂, hsplit, ?_, hm, hall, hfirst⟩
    show (match (Hook.nearestLoop t
        (Hook.snapCandidates snapToGrid snapInterval tracks t excludeItemId)
        (none, snapThreshold)).1 with
      | some p => p.time
      | none => t) = r.time
    rw [hr]

end VideoMaker
